import Mathlib

/-!
Shallow embedding of the grid layout engine of gridtech-react: the geometry
primitives (gridMath.ts, gridCollision.ts), the free-space finder
(gridPlacement.ts), the position validator and the reflow engine
(gridUtils.ts).

Coordinates and sizes are integers.  The source's occupancy object, a JS
record keyed by the string "x,y", is modelled as a function from integer
cells to optional occupant identifiers; the key is injective on integer
cells, so nothing is lost.  JS truthiness is preserved where the source
relies on it: an empty-string identifier stored in the occupancy map is
falsy in the source's occupancy test, and an empty-string active identifier
disables the active-first comparison branch.  A widget's caller-owned
payload (type tag, render props, per-widget size limits) is opaque to the
engine and modelled by a type parameter.
-/

/-- A rectangle as consumed by the geometry helpers: position and size in
grid cells. -/
structure Rect where
  x : Int
  y : Int
  width : Int
  height : Int
deriving DecidableEq

/-- A widget: a rectangle, a string identifier, and the caller-owned payload
(the source's type, props, minW, minH, maxW, maxH fields), opaque here. -/
structure WidgetState (α : Type) where
  id : String
  x : Int
  y : Int
  width : Int
  height : Int
  payload : α
deriving DecidableEq

/-- The rectangle of a widget, as the source's object spread
of x, y, width, height builds it. -/
def toRect {α : Type} (w : WidgetState α) : Rect :=
  ⟨w.x, w.y, w.width, w.height⟩

/-- gridCollision.ts checkCollision: strict-inequality AABB overlap test. -/
def checkCollision (widget1 widget2 : Rect) : Bool :=
  decide (widget1.x < widget2.x + widget2.width) &&
  decide (widget1.x + widget1.width > widget2.x) &&
  decide (widget1.y < widget2.y + widget2.height) &&
  decide (widget1.y + widget1.height > widget2.y)

/-- gridMath.ts clampGridPosition. -/
def clampGridPosition (x y gridCols gridRows widgetWidth widgetHeight : Int) : Int × Int :=
  (max 0 (min x (gridCols - widgetWidth)), max 0 (min y (gridRows - widgetHeight)))

/-- The candidate positions gridPlacement.ts getNextAvailablePosition scans,
in its loop order: y from 0 while y + widgetHeight is at most gridRows, and
for each y, x from 0 while x + widgetWidth is at most gridCols. -/
def searchCandidates (gridCols gridRows widgetWidth widgetHeight : Int) : List (Int × Int) :=
  (List.range (gridRows - widgetHeight + 1).toNat).flatMap fun y =>
    (List.range (gridCols - widgetWidth + 1).toNat).map fun x =>
      (((x : Nat) : Int), ((y : Nat) : Int))

/-- gridPlacement.ts getNextAvailablePosition: first candidate position whose
widgetWidth by widgetHeight rectangle overlaps no occupied rectangle. -/
def getNextAvailablePosition (widgets : List Rect)
    (gridCols gridRows widgetWidth widgetHeight : Int) : Option (Int × Int) :=
  (searchCandidates gridCols gridRows widgetWidth widgetHeight).find? fun p =>
    ! widgets.any fun w =>
      decide (w.x < p.1 + widgetWidth) && decide (w.x + w.width > p.1) &&
      decide (w.y < p.2 + widgetHeight) && decide (w.y + w.height > p.2)

/-- The record gridUtils.ts validateWidgetPosition returns. -/
structure ValidationResult where
  isValid : Bool
  suggestedPosition : Option (Int × Int)
deriving DecidableEq

/-- gridUtils.ts validateWidgetPosition. -/
def validateWidgetPosition {α : Type} (widget : WidgetState α)
    (allWidgets : List (WidgetState α)) (gridCols gridRows : Int)
    (preventOverlap : Bool) : ValidationResult :=
  if widget.x < 0 ∨ widget.y < 0 ∨
      widget.x + widget.width > gridCols ∨ widget.y + widget.height > gridRows then
    ⟨false, some (clampGridPosition widget.x widget.y gridCols gridRows
      widget.width widget.height)⟩
  else if preventOverlap &&
      allWidgets.any (fun other =>
        decide (other.id ≠ widget.id) && checkCollision (toRect widget) (toRect other)) then
    ⟨false, some ((getNextAvailablePosition (allWidgets.map toRect) gridCols gridRows
      widget.width widget.height).getD (0, 0))⟩
  else ⟨true, none⟩

/-- The reflow pass's occupancy map: grid cell to occupant identifier. -/
abbrev GridMap : Type := Int × Int → Option String

/-- The occupancy map a reflow pass starts from: every cell free. -/
def emptyGridMap : GridMap := fun _ => none

/-- Writing one cell of the occupancy map. -/
def updateGridMap (g : GridMap) (cell : Int × Int) (occupant : String) : GridMap :=
  fun c => if c = cell then some occupant else g c

/-- gridUtils.ts canPlaceWidget: in-bounds check, then every covered cell is
free, or holds an identifier that is falsy (empty) or the widget's own. -/
def canPlaceWidget {α : Type} (gridMap : GridMap) (gridCols gridRows : Int)
    (widget : WidgetState α) (x y : Int) : Bool :=
  if x < 0 ∨ y < 0 ∨ x + widget.width > gridCols ∨ y + widget.height > gridRows then
    false
  else
    (List.range widget.height.toNat).all fun dy =>
      (List.range widget.width.toNat).all fun dx =>
        match gridMap (x + ((dx : Nat) : Int), y + ((dy : Nat) : Int)) with
        | none => true
        | some occupant => decide (occupant = "") || decide (occupant = widget.id)

/-- gridUtils.ts occupyCells: mark every cell of the widget at (x, y). -/
def occupyCells {α : Type} (widget : WidgetState α) (x y : Int) (g : GridMap) : GridMap :=
  (List.range widget.height.toNat).foldl
    (fun g1 dy =>
      (List.range widget.width.toNat).foldl
        (fun g2 dx => updateGridMap g2 (x + ((dx : Nat) : Int), y + ((dy : Nat) : Int)) widget.id) g1)
    g

/-- gridUtils.ts findNextPosition: keep the original position when it can be
placed, otherwise first fit against the widgets already placed in this pass,
with (0, 0) when the finder returns nothing. -/
def findNextPosition {α : Type} (gridCols gridRows : Int) (result : List (WidgetState α))
    (gridMap : GridMap) (widget : WidgetState α) : Int × Int :=
  if canPlaceWidget gridMap gridCols gridRows widget widget.x widget.y then
    (widget.x, widget.y)
  else
    match getNextAvailablePosition (result.map toRect) gridCols gridRows
        widget.width widget.height with
    | some p => p
    | none => (0, 0)

/-- The comparator of gridUtils.ts reflowWidgets' sort: the active widget
first (skipped when the active identifier is falsy, that is empty), then
ascending y, then ascending x. -/
def sortCmp {α : Type} (activeWidgetId : Option String) (a b : WidgetState α) : Int :=
  match activeWidgetId with
  | some act =>
    if act = "" then (if a.y = b.y then a.x - b.x else a.y - b.y)
    else if a.id = act then -1
    else if b.id = act then 1
    else if a.y = b.y then a.x - b.x else a.y - b.y
  | none => if a.y = b.y then a.x - b.x else a.y - b.y

/-- Non-strict order induced by the comparator. -/
def widgetLE {α : Type} (activeWidgetId : Option String) (a b : WidgetState α) : Bool :=
  decide (sortCmp activeWidgetId a b ≤ 0)

/-- One insertion step of a stable insertion sort: the new element goes after
every element that compares less-or-equal to it. -/
def insertSorted {α : Type} (le : WidgetState α → WidgetState α → Bool)
    (x : WidgetState α) : List (WidgetState α) → List (WidgetState α)
  | [] => [x]
  | y :: ys => if le y x then y :: insertSorted le x ys else x :: y :: ys

/-- The stable sort of reflowWidgets (JS Array.prototype.sort is stable):
active widget first, then reading order, ties kept in input order. -/
def sortWidgets {α : Type} (activeWidgetId : Option String)
    (l : List (WidgetState α)) : List (WidgetState α) :=
  l.foldl (fun acc w => insertSorted (widgetLE activeWidgetId) w acc) []

/-- The placement loop of reflowWidgets: process the ordered widgets,
carrying the already-placed list and the occupancy map. -/
def reflowLoop {α : Type} (gridCols gridRows : Int) :
    List (WidgetState α) → List (WidgetState α) → GridMap → List (WidgetState α)
  | [], _, _ => []
  | widget :: rest, result, gridMap =>
    let pos := findNextPosition gridCols gridRows result gridMap widget
    let finalWidget := { widget with x := pos.1, y := pos.2 }
    finalWidget :: reflowLoop gridCols gridRows rest (result ++ [finalWidget])
      (occupyCells finalWidget pos.1 pos.2 gridMap)

/-- gridUtils.ts reflowWidgets. -/
def reflowWidgets {α : Type} (widgets : List (WidgetState α)) (gridCols gridRows : Int)
    (preventOverlap : Bool) (activeWidgetId : Option String) : List (WidgetState α) :=
  if !preventOverlap then
    widgets.map fun widget =>
      let c := clampGridPosition widget.x widget.y gridCols gridRows
        widget.width widget.height
      { widget with x := c.1, y := c.2 }
  else
    reflowLoop gridCols gridRows (sortWidgets activeWidgetId widgets) [] emptyGridMap

/-- Mirror of the placement loop recording whether every widget was placed
without the (0, 0) exhaustion fallback: true iff at each step the original
position fits or the free-space finder succeeds. -/
def reflowNoFallback {α : Type} (gridCols gridRows : Int) :
    List (WidgetState α) → List (WidgetState α) → GridMap → Bool
  | [], _, _ => true
  | widget :: rest, result, gridMap =>
    (canPlaceWidget gridMap gridCols gridRows widget widget.x widget.y ||
      (getNextAvailablePosition (result.map toRect) gridCols gridRows
        widget.width widget.height).isSome) &&
    (let pos := findNextPosition gridCols gridRows result gridMap widget
     let finalWidget := { widget with x := pos.1, y := pos.2 }
     reflowNoFallback gridCols gridRows rest (result ++ [finalWidget])
       (occupyCells finalWidget pos.1 pos.2 gridMap))

/-- A reflow pass with preventOverlap placed every widget without the (0, 0)
exhaustion fallback. -/
def reflowPlacesAll {α : Type} (widgets : List (WidgetState α)) (gridCols gridRows : Int)
    (activeWidgetId : Option String) : Bool :=
  reflowNoFallback gridCols gridRows (sortWidgets activeWidgetId widgets) [] emptyGridMap

/-- The in-bounds predicate of the spec's data model. -/
def inBoundsRect (gridCols gridRows : Int) (r : Rect) : Prop :=
  0 ≤ r.x ∧ 0 ≤ r.y ∧ r.x + r.width ≤ gridCols ∧ r.y + r.height ≤ gridRows

instance (gridCols gridRows : Int) (r : Rect) : Decidable (inBoundsRect gridCols gridRows r) := by
  unfold inBoundsRect; infer_instance

/-- The widget covers the grid cell. -/
def coversCell {α : Type} (w : WidgetState α) (c : Int × Int) : Prop :=
  w.x ≤ c.1 ∧ c.1 < w.x + w.width ∧ w.y ≤ c.2 ∧ c.2 < w.y + w.height

instance {α : Type} (w : WidgetState α) (c : Int × Int) : Decidable (coversCell w c) := by
  unfold coversCell; infer_instance

/-- Two widgets do not overlap. -/
def widgetsDisjoint {α : Type} (a b : WidgetState α) : Prop :=
  checkCollision (toRect a) (toRect b) = false

instance {α : Type} (a b : WidgetState α) : Decidable (widgetsDisjoint a b) := by
  unfold widgetsDisjoint; infer_instance

/-- The occupancy map holds exactly the cells of the placed widgets, each
with its occupant's identifier. -/
def placedConsistent {α : Type} (placed : List (WidgetState α)) (g : GridMap) : Prop :=
  ∀ c s, g c = some s ↔ ∃ p ∈ placed, coversCell p c ∧ p.id = s

/-- Row-major (reading) order on positions: smaller y first, then smaller x. -/
def rowMajorLt (p q : Int × Int) : Prop :=
  p.2 < q.2 ∨ (p.2 = q.2 ∧ p.1 < q.1)

instance (p q : Int × Int) : Decidable (rowMajorLt p q) := by
  unfold rowMajorLt; infer_instance

theorem checkCollision_iff (a b : Rect) :
    checkCollision a b = true ↔
      (a.x < b.x + b.width ∧ a.x + a.width > b.x ∧
        a.y < b.y + b.height ∧ a.y + a.height > b.y) := by
  simp [checkCollision, and_assoc]

theorem checkCollision_false_iff (a b : Rect) :
    checkCollision a b = false ↔
      ¬(a.x < b.x + b.width ∧ a.x + a.width > b.x ∧
        a.y < b.y + b.height ∧ a.y + a.height > b.y) := by
  rw [← checkCollision_iff]
  exact ⟨fun h => by simp [h], fun h => by simpa using h⟩

theorem checkCollision_false_comm (a b : Rect) (h : checkCollision a b = false) :
    checkCollision b a = false := by
  rw [checkCollision_false_iff] at h ⊢
  intro hc
  obtain ⟨h1, h2, h3, h4⟩ := hc
  exact h ⟨by omega, by omega, by omega, by omega⟩

theorem widgetsDisjoint_symmetric {α : Type} : Symmetric (@widgetsDisjoint α) :=
  fun _ _ h => checkCollision_false_comm _ _ h

theorem overlap_of_shared_cell {α : Type} (u v : WidgetState α) (c : Int × Int)
    (hu : coversCell u c) (hv : coversCell v c) :
    checkCollision (toRect u) (toRect v) = true := by
  rw [checkCollision_iff]
  unfold coversCell at hu hv
  unfold toRect
  dsimp
  omega

theorem shared_cell_of_overlap {α : Type} (u v : WidgetState α)
    (huw : 1 ≤ u.width) (huh : 1 ≤ u.height) (hvw : 1 ≤ v.width) (hvh : 1 ≤ v.height)
    (h : checkCollision (toRect u) (toRect v) = true) :
    ∃ c, coversCell u c ∧ coversCell v c := by
  rw [checkCollision_iff] at h
  unfold toRect at h
  dsimp only at h
  obtain ⟨h1, h2, h3, h4⟩ := h
  rcases le_total u.x v.x with hx | hx <;> rcases le_total u.y v.y with hy | hy
  · exact ⟨(v.x, v.y), by unfold coversCell; dsimp only; omega,
      by unfold coversCell; dsimp only; omega⟩
  · exact ⟨(v.x, u.y), by unfold coversCell; dsimp only; omega,
      by unfold coversCell; dsimp only; omega⟩
  · exact ⟨(u.x, v.y), by unfold coversCell; dsimp only; omega,
      by unfold coversCell; dsimp only; omega⟩
  · exact ⟨(u.x, u.y), by unfold coversCell; dsimp only; omega,
      by unfold coversCell; dsimp only; omega⟩

theorem mem_searchCandidates (gridCols gridRows widgetWidth widgetHeight : Int)
    (p : Int × Int) :
    p ∈ searchCandidates gridCols gridRows widgetWidth widgetHeight ↔
      0 ≤ p.1 ∧ p.1 ≤ gridCols - widgetWidth ∧ 0 ≤ p.2 ∧ p.2 ≤ gridRows - widgetHeight := by
  obtain ⟨a, b⟩ := p
  unfold searchCandidates
  simp only [List.mem_flatMap, List.mem_map, List.mem_range]
  constructor
  · rintro ⟨y, hy, x, hx, heq⟩
    rw [Prod.mk.injEq] at heq
    obtain ⟨hx', hy'⟩ := heq
    omega
  · rintro ⟨h1, h2, h3, h4⟩
    refine ⟨b.toNat, by omega, a.toNat, by omega, ?_⟩
    rw [Prod.mk.injEq]
    constructor <;> omega

theorem pairwise_searchCandidates (gridCols gridRows widgetWidth widgetHeight : Int) :
    (searchCandidates gridCols gridRows widgetWidth widgetHeight).Pairwise rowMajorLt := by
  unfold searchCandidates
  rw [List.flatMap_def, List.pairwise_flatten]
  constructor
  · intro l hl
    simp only [List.mem_map] at hl
    obtain ⟨y, _, rfl⟩ := hl
    refine List.Pairwise.map (fun x : Nat => (((x : Nat) : Int), ((y : Nat) : Int)))
      (fun a b hab => ?_) (List.pairwise_lt_range _)
    unfold rowMajorLt
    refine Or.inr ⟨rfl, ?_⟩
    show ((a : Nat) : Int) < ((b : Nat) : Int)
    exact_mod_cast hab
  · refine List.Pairwise.map
      (fun y : Nat => (List.range (gridCols - widgetWidth + 1).toNat).map
        fun x => (((x : Nat) : Int), ((y : Nat) : Int)))
      ?_ (List.pairwise_lt_range _)
    intro y1 y2 h12 q hq r hr
    simp only [List.mem_map] at hq hr
    obtain ⟨x1, _, rfl⟩ := hq
    obtain ⟨x2, _, rfl⟩ := hr
    unfold rowMajorLt
    refine Or.inl ?_
    show ((y1 : Nat) : Int) < ((y2 : Nat) : Int)
    exact_mod_cast h12

theorem find?_first {β : Type} (R : β → β → Prop) (p : β → Bool)
    (hasym : ∀ a b, R a b → R b a → False) :
    ∀ (l : List β) (a : β), l.Pairwise R → l.find? p = some a →
      ∀ b ∈ l, R b a → p b = false := by
  intro l
  induction l with
  | nil => intro a _ h; simp at h
  | cons h t ih =>
    intro a hpw hfind b hb hR
    rw [List.pairwise_cons] at hpw
    by_cases hph : p h = true
    · rw [List.find?_cons_of_pos t hph] at hfind
      injection hfind with he
      subst he
      rcases List.mem_cons.mp hb with rfl | hbt
      · exact absurd hR (fun hr => hasym _ _ hr hr)
      · exact absurd hR (fun hr => hasym _ _ hr (hpw.1 b hbt))
    · rw [List.find?_cons_of_neg t hph] at hfind
      rcases List.mem_cons.mp hb with rfl | hbt
      · simpa using hph
      · exact ih a hpw.2 hfind b hbt hR

theorem rowMajorLt_asym (a b : Int × Int) (h1 : rowMajorLt a b) (h2 : rowMajorLt b a) : False := by
  unfold rowMajorLt at h1 h2
  omega

theorem finder_test_eq (w : Rect) (x y ww wh : Int) :
    (decide (w.x < x + ww) && decide (w.x + w.width > x) &&
      decide (w.y < y + wh) && decide (w.y + w.height > y)) =
      checkCollision w ⟨x, y, ww, wh⟩ := rfl

theorem getNext_some {widgets : List Rect} {gridCols gridRows widgetWidth widgetHeight x y : Int}
    (h : getNextAvailablePosition widgets gridCols gridRows widgetWidth widgetHeight = some (x, y)) :
    (0 ≤ x ∧ x ≤ gridCols - widgetWidth ∧ 0 ≤ y ∧ y ≤ gridRows - widgetHeight) ∧
      ∀ r ∈ widgets, checkCollision r ⟨x, y, widgetWidth, widgetHeight⟩ = false := by
  unfold getNextAvailablePosition at h
  have hmem := List.mem_of_find?_eq_some h
  have hp := List.find?_some h
  refine ⟨(mem_searchCandidates _ _ _ _ _).mp hmem, ?_⟩
  intro r hr
  rw [Bool.not_eq_eq_eq_not, Bool.not_true, List.any_eq_false] at hp
  have := hp r hr
  dsimp at this
  rw [finder_test_eq] at this
  simpa using this

theorem getNext_none_iff (widgets : List Rect) (gridCols gridRows widgetWidth widgetHeight : Int) :
    getNextAvailablePosition widgets gridCols gridRows widgetWidth widgetHeight = none ↔
      ∀ x y : Int, 0 ≤ x → x ≤ gridCols - widgetWidth → 0 ≤ y → y ≤ gridRows - widgetHeight →
        ∃ r ∈ widgets, checkCollision r ⟨x, y, widgetWidth, widgetHeight⟩ = true := by
  unfold getNextAvailablePosition
  rw [List.find?_eq_none]
  constructor
  · intro H x y h1 h2 h3 h4
    have hmem := (mem_searchCandidates gridCols gridRows widgetWidth widgetHeight (x, y)).mpr
      ⟨h1, h2, h3, h4⟩
    have := H _ hmem
    rw [Bool.not_eq_true, Bool.not_eq_eq_eq_not, Bool.not_false, List.any_eq_true] at this
    obtain ⟨r, hr, htest⟩ := this
    refine ⟨r, hr, ?_⟩
    dsimp at htest
    rw [finder_test_eq] at htest
    exact htest
  · intro H p hp
    have hm := (mem_searchCandidates gridCols gridRows widgetWidth widgetHeight p).mp hp
    obtain ⟨r, hr, hcol⟩ := H p.1 p.2 hm.1 hm.2.1 hm.2.2.1 hm.2.2.2
    rw [Bool.not_eq_true, Bool.not_eq_eq_eq_not, Bool.not_false, List.any_eq_true]
    refine ⟨r, hr, ?_⟩
    dsimp
    rw [finder_test_eq]
    exact hcol

theorem getNext_first {widgets : List Rect} {gridCols gridRows widgetWidth widgetHeight x y : Int}
    (h : getNextAvailablePosition widgets gridCols gridRows widgetWidth widgetHeight = some (x, y)) :
    ∀ x' y' : Int, 0 ≤ x' → x' ≤ gridCols - widgetWidth → 0 ≤ y' → y' ≤ gridRows - widgetHeight →
      rowMajorLt (x', y') (x, y) →
      ∃ r ∈ widgets, checkCollision r ⟨x', y', widgetWidth, widgetHeight⟩ = true := by
  intro x' y' h1 h2 h3 h4 hlt
  have hmem := (mem_searchCandidates gridCols gridRows widgetWidth widgetHeight (x', y')).mpr
    ⟨h1, h2, h3, h4⟩
  have hfail := find?_first rowMajorLt _ rowMajorLt_asym _ _
    (pairwise_searchCandidates gridCols gridRows widgetWidth widgetHeight) h (x', y') hmem hlt
  rw [Bool.not_eq_eq_eq_not, Bool.not_false, List.any_eq_true] at hfail
  obtain ⟨r, hr, htest⟩ := hfail
  refine ⟨r, hr, ?_⟩
  dsimp at htest
  rw [finder_test_eq] at htest
  exact htest

theorem canPlaceWidget_iff {α : Type} (g : GridMap) (gridCols gridRows : Int)
    (w : WidgetState α) (x y : Int) :
    canPlaceWidget g gridCols gridRows w x y = true ↔
      (0 ≤ x ∧ 0 ≤ y ∧ x + w.width ≤ gridCols ∧ y + w.height ≤ gridRows) ∧
      ∀ c : Int × Int, x ≤ c.1 → c.1 < x + w.width → y ≤ c.2 → c.2 < y + w.height →
        ∀ s, g c = some s → s = "" ∨ s = w.id := by
  unfold canPlaceWidget
  by_cases hb : x < 0 ∨ y < 0 ∨ x + w.width > gridCols ∨ y + w.height > gridRows
  · rw [if_pos hb]
    constructor
    · intro h
      simp at h
    · rintro ⟨hbnd, -⟩
      exfalso
      omega
  · rw [if_neg hb]
    push_neg at hb
    constructor
    · intro hall
      refine ⟨by omega, ?_⟩
      intro c hc1 hc2 hc3 hc4 s hgs
      rw [List.all_eq_true] at hall
      have hdy := hall (c.2 - y).toNat (by rw [List.mem_range]; omega)
      rw [List.all_eq_true] at hdy
      have hdx := hdy (c.1 - x).toNat (by rw [List.mem_range]; omega)
      have hcell : (x + (((c.1 - x).toNat : Nat) : Int), y + (((c.2 - y).toNat : Nat) : Int)) = c := by
        obtain ⟨c1, c2⟩ := c
        rw [Prod.mk.injEq]
        constructor <;> omega
      rw [hcell, hgs] at hdx
      simpa using hdx
    · rintro ⟨hbnd, hcells⟩
      rw [List.all_eq_true]
      intro dy hdy
      rw [List.all_eq_true]
      intro dx hdx
      rw [List.mem_range] at hdy hdx
      rcases hg : g (x + ((dx : Nat) : Int), y + ((dy : Nat) : Int)) with _ | s
      · rfl
      · have := hcells (x + ((dx : Nat) : Int), y + ((dy : Nat) : Int))
          (by omega) (by omega) (by omega) (by omega) s hg
        rcases this with h | h <;> simp [h]

theorem canPlaceWidget_oob {α : Type} (g : GridMap) (gridCols gridRows : Int)
    (w : WidgetState α) (x y : Int)
    (h : ¬ inBoundsRect gridCols gridRows ⟨x, y, w.width, w.height⟩) :
    canPlaceWidget g gridCols gridRows w x y = false := by
  rw [Bool.eq_false_iff]
  intro hc
  have hbnd := ((canPlaceWidget_iff g gridCols gridRows w x y).mp hc).1
  exact h (by unfold inBoundsRect; dsimp only; omega)

theorem foldl_update_hit (v : String) (f : Nat → Int × Int) :
    ∀ (n : Nat) (g : GridMap) (c : Int × Int),
      (∃ i, i < n ∧ c = f i) →
      ((List.range n).foldl (fun gm i => updateGridMap gm (f i) v) g) c = some v := by
  intro n
  induction n with
  | zero => rintro g c ⟨i, hi, -⟩; omega
  | succ n ih =>
    rintro g c ⟨i, hi, hc⟩
    rw [List.range_succ, List.foldl_append, List.foldl_cons, List.foldl_nil]
    by_cases hcn : c = f n
    · unfold updateGridMap
      rw [if_pos hcn]
    · unfold updateGridMap
      rw [if_neg hcn]
      refine ih g c ⟨i, ?_, hc⟩
      rcases Nat.lt_succ_iff_lt_or_eq.mp hi with h | rfl
      · exact h
      · exact absurd hc hcn

theorem foldl_update_miss (v : String) (f : Nat → Int × Int) :
    ∀ (n : Nat) (g : GridMap) (c : Int × Int),
      (∀ i, i < n → c ≠ f i) →
      ((List.range n).foldl (fun gm i => updateGridMap gm (f i) v) g) c = g c := by
  intro n
  induction n with
  | zero => intro g c _; rfl
  | succ n ih =>
    intro g c hc
    rw [List.range_succ, List.foldl_append, List.foldl_cons, List.foldl_nil]
    unfold updateGridMap
    rw [if_neg (hc n (by omega))]
    exact ih g c fun i hi => hc i (by omega)

theorem occupyCells_hit {α : Type} (w : WidgetState α) (x y : Int) (g : GridMap)
    (c : Int × Int) (h : x ≤ c.1 ∧ c.1 < x + w.width ∧ y ≤ c.2 ∧ c.2 < y + w.height) :
    occupyCells w x y g c = some w.id := by
  unfold occupyCells
  obtain ⟨h1, h2, h3, h4⟩ := h
  have hrow : ∀ (dy : Nat) (g1 : GridMap), c.2 = y + ((dy : Nat) : Int) →
      ((List.range w.width.toNat).foldl
        (fun g2 dx => updateGridMap g2 (x + ((dx : Nat) : Int), y + ((dy : Nat) : Int)) w.id) g1) c
        = some w.id := by
    intro dy g1 hc2
    refine foldl_update_hit w.id (fun dx => (x + ((dx : Nat) : Int), y + ((dy : Nat) : Int)))
      w.width.toNat g1 c ⟨(c.1 - x).toNat, by omega, ?_⟩
    obtain ⟨c1, c2⟩ := c
    rw [Prod.mk.injEq]
    dsimp only at h1 h2 hc2 ⊢
    constructor <;> omega
  have hmiss : ∀ (dy : Nat) (g1 : GridMap), c.2 ≠ y + ((dy : Nat) : Int) →
      ((List.range w.width.toNat).foldl
        (fun g2 dx => updateGridMap g2 (x + ((dx : Nat) : Int), y + ((dy : Nat) : Int)) w.id) g1) c
        = g1 c := by
    intro dy g1 hc2
    refine foldl_update_miss w.id (fun dx => (x + ((dx : Nat) : Int), y + ((dy : Nat) : Int)))
      w.width.toNat g1 c ?_
    intro i hi heq
    obtain ⟨c1, c2⟩ := c
    rw [Prod.mk.injEq] at heq
    exact hc2 heq.2
  have key : ∀ (n : Nat) (g0 : GridMap), ((c.2 - y).toNat < n) →
      ((List.range n).foldl
        (fun g1 dy => (List.range w.width.toNat).foldl
          (fun g2 dx => updateGridMap g2 (x + ((dx : Nat) : Int), y + ((dy : Nat) : Int)) w.id) g1) g0) c
        = some w.id := by
    intro n
    induction n with
    | zero => intro g0 h0; omega
    | succ n ihn =>
      intro g0 hlt
      rw [List.range_succ, List.foldl_append, List.foldl_cons, List.foldl_nil]
      by_cases hceq : c.2 = y + ((n : Nat) : Int)
      · exact hrow n _ hceq
      · rw [hmiss n _ hceq]
        exact ihn g0 (by omega)
  exact key w.height.toNat g (by omega)

theorem occupyCells_miss {α : Type} (w : WidgetState α) (x y : Int) (g : GridMap)
    (c : Int × Int) (h : ¬(x ≤ c.1 ∧ c.1 < x + w.width ∧ y ≤ c.2 ∧ c.2 < y + w.height)) :
    occupyCells w x y g c = g c := by
  unfold occupyCells
  have key : ∀ (n : Nat) (g0 : GridMap), n ≤ w.height.toNat →
      ((List.range n).foldl
        (fun g1 dy => (List.range w.width.toNat).foldl
          (fun g2 dx => updateGridMap g2 (x + ((dx : Nat) : Int), y + ((dy : Nat) : Int)) w.id) g1) g0) c
        = g0 c := by
    intro n
    induction n with
    | zero => intro g0 _; rfl
    | succ n ihn =>
      intro g0 hle
      rw [List.range_succ, List.foldl_append, List.foldl_cons, List.foldl_nil]
      have hone : ((List.range w.width.toNat).foldl
          (fun g2 dx => updateGridMap g2 (x + ((dx : Nat) : Int), y + ((n : Nat) : Int)) w.id)
          ((List.range n).foldl (fun g1 dy => (List.range w.width.toNat).foldl
            (fun g2 dx => updateGridMap g2 (x + ((dx : Nat) : Int), y + ((dy : Nat) : Int)) w.id) g1) g0)) c
          = ((List.range n).foldl (fun g1 dy => (List.range w.width.toNat).foldl
            (fun g2 dx => updateGridMap g2 (x + ((dx : Nat) : Int), y + ((dy : Nat) : Int)) w.id) g1) g0) c := by
        refine foldl_update_miss w.id _ _ _ c ?_
        intro i hi heq
        obtain ⟨c1, c2⟩ := c
        rw [Prod.mk.injEq] at heq
        apply h
        omega
      rw [hone]
      exact ihn g0 (by omega)
  exact key w.height.toNat g (by omega)

theorem placedConsistent_nil {α : Type} :
    placedConsistent ([] : List (WidgetState α)) emptyGridMap := by
  intro c s
  simp [emptyGridMap]

theorem placedConsistent_extend {α : Type} (placed : List (WidgetState α)) (g : GridMap)
    (w : WidgetState α) (hcons : placedConsistent placed g)
    (hdisj : ∀ p ∈ placed, checkCollision (toRect p) (toRect w) = false) :
    placedConsistent (placed ++ [w]) (occupyCells w w.x w.y g) := by
  intro c s
  by_cases hcov : coversCell w c
  · rw [occupyCells_hit w w.x w.y g c (by unfold coversCell at hcov; exact hcov)]
    constructor
    · intro he
      injection he with he
      exact ⟨w, by simp, hcov, he⟩
    · rintro ⟨p, hp, hpc, rfl⟩
      rcases List.mem_append.mp hp with hpl | hpw
      · have h1 := overlap_of_shared_cell p w c hpc hcov
        rw [hdisj p hpl] at h1
        simp at h1
      · rw [List.mem_singleton] at hpw
        subst hpw
        rfl
  · rw [occupyCells_miss w w.x w.y g c (by unfold coversCell at hcov; exact hcov)]
    rw [hcons c s]
    constructor
    · rintro ⟨p, hp, hrest⟩
      exact ⟨p, List.mem_append.mpr (Or.inl hp), hrest⟩
    · rintro ⟨p, hp, hpc, hid⟩
      rcases List.mem_append.mp hp with hpl | hpw
      · exact ⟨p, hpl, hpc, hid⟩
      · rw [List.mem_singleton] at hpw
        subst hpw
        exact absurd hpc hcov

theorem insertSorted_perm {α : Type} (le : WidgetState α → WidgetState α → Bool)
    (x : WidgetState α) (l : List (WidgetState α)) :
    (insertSorted le x l).Perm (x :: l) := by
  induction l with
  | nil => exact List.Perm.refl _
  | cons y ys ih =>
    unfold insertSorted
    by_cases h : le y x = true
    · rw [if_pos h]
      exact (ih.cons y).trans (List.Perm.swap x y ys)
    · rw [if_neg h]

theorem foldl_insertSorted_perm {α : Type} (le : WidgetState α → WidgetState α → Bool) :
    ∀ (l acc : List (WidgetState α)),
      (l.foldl (fun acc w => insertSorted le w acc) acc).Perm (acc ++ l) := by
  intro l
  induction l with
  | nil => intro acc; simp
  | cons x xs ih =>
    intro acc
    rw [List.foldl_cons]
    refine (ih (insertSorted le x acc)).trans ?_
    refine (((insertSorted_perm le x acc).append_right xs).trans ?_)
    rw [List.cons_append]
    exact List.perm_middle.symm

theorem sortWidgets_perm {α : Type} (activeWidgetId : Option String)
    (l : List (WidgetState α)) : (sortWidgets activeWidgetId l).Perm l := by
  unfold sortWidgets
  simpa using foldl_insertSorted_perm (widgetLE activeWidgetId) l []

theorem mem_sortWidgets {α : Type} (activeWidgetId : Option String)
    (l : List (WidgetState α)) (w : WidgetState α) :
    w ∈ sortWidgets activeWidgetId l ↔ w ∈ l :=
  (sortWidgets_perm activeWidgetId l).mem_iff

theorem reflowLoop_map_id {α : Type} (gridCols gridRows : Int) :
    ∀ (rest result : List (WidgetState α)) (g : GridMap),
      (reflowLoop gridCols gridRows rest result g).map (fun w => w.id) =
        rest.map (fun w => w.id) := by
  intro rest
  induction rest with
  | nil => intro result g; rfl
  | cons w ws ih =>
    intro result g
    unfold reflowLoop
    rw [List.map_cons, List.map_cons, ih]

theorem reflowLoop_shape {α : Type} (gridCols gridRows : Int) :
    ∀ (rest result : List (WidgetState α)) (g : GridMap) (o : WidgetState α),
      o ∈ reflowLoop gridCols gridRows rest result g →
      ∃ i ∈ rest, o.id = i.id ∧ o.width = i.width ∧ o.height = i.height ∧
        o.payload = i.payload := by
  intro rest
  induction rest with
  | nil => intro result g o ho; simp [reflowLoop] at ho
  | cons w ws ih =>
    intro result g o ho
    unfold reflowLoop at ho
    rcases List.mem_cons.mp ho with rfl | ht
    · exact ⟨w, List.mem_cons_self w ws, rfl, rfl, rfl, rfl⟩
    · obtain ⟨i, hi, hrest⟩ := ih _ _ _ ht
      exact ⟨i, List.mem_cons_of_mem w hi, hrest⟩

theorem findNextPosition_inBounds {α : Type} (gridCols gridRows : Int)
    (result : List (WidgetState α)) (g : GridMap) (w : WidgetState α)
    (hfw : w.width ≤ gridCols) (hfh : w.height ≤ gridRows) :
    inBoundsRect gridCols gridRows
      ⟨(findNextPosition gridCols gridRows result g w).1,
        (findNextPosition gridCols gridRows result g w).2, w.width, w.height⟩ := by
  unfold findNextPosition
  by_cases hcp : canPlaceWidget g gridCols gridRows w w.x w.y = true
  · rw [if_pos hcp]
    have hbnd := ((canPlaceWidget_iff g gridCols gridRows w w.x w.y).mp hcp).1
    unfold inBoundsRect
    dsimp only
    omega
  · rw [if_neg hcp]
    rcases hfind : getNextAvailablePosition (result.map toRect) gridCols gridRows
        w.width w.height with _ | p
    · unfold inBoundsRect
      dsimp only
      omega
    · obtain ⟨px, py⟩ := p
      have hbnd := (getNext_some hfind).1
      unfold inBoundsRect
      dsimp only
      omega

theorem reflowLoop_inBounds {α : Type} (gridCols gridRows : Int) :
    ∀ (rest result : List (WidgetState α)) (g : GridMap),
      (∀ w ∈ rest, w.width ≤ gridCols ∧ w.height ≤ gridRows) →
      ∀ o ∈ reflowLoop gridCols gridRows rest result g,
        inBoundsRect gridCols gridRows (toRect o) := by
  intro rest
  induction rest with
  | nil => intro result g _ o ho; simp [reflowLoop] at ho
  | cons w ws ih =>
    intro result g hfit o ho
    unfold reflowLoop at ho
    rcases List.mem_cons.mp ho with rfl | ht
    · have := findNextPosition_inBounds gridCols gridRows result g w
        (hfit w (List.mem_cons_self w ws)).1 (hfit w (List.mem_cons_self w ws)).2
      exact this
    · exact ih _ _ (fun v hv => hfit v (List.mem_cons_of_mem w hv)) o ht

theorem reflowLoop_cons {α : Type} (gridCols gridRows : Int) (w : WidgetState α)
    (ws result : List (WidgetState α)) (g : GridMap) :
    reflowLoop gridCols gridRows (w :: ws) result g =
      { w with x := (findNextPosition gridCols gridRows result g w).1,
               y := (findNextPosition gridCols gridRows result g w).2 } ::
        reflowLoop gridCols gridRows ws
          (result ++ [{ w with x := (findNextPosition gridCols gridRows result g w).1,
                               y := (findNextPosition gridCols gridRows result g w).2 }])
          (occupyCells { w with x := (findNextPosition gridCols gridRows result g w).1,
                                y := (findNextPosition gridCols gridRows result g w).2 }
            (findNextPosition gridCols gridRows result g w).1
            (findNextPosition gridCols gridRows result g w).2 g) := rfl

theorem reflowNoFallback_cons {α : Type} (gridCols gridRows : Int) (w : WidgetState α)
    (ws result : List (WidgetState α)) (g : GridMap) :
    reflowNoFallback gridCols gridRows (w :: ws) result g =
      ((canPlaceWidget g gridCols gridRows w w.x w.y ||
        (getNextAvailablePosition (result.map toRect) gridCols gridRows
          w.width w.height).isSome) &&
      reflowNoFallback gridCols gridRows ws
        (result ++ [{ w with x := (findNextPosition gridCols gridRows result g w).1,
                             y := (findNextPosition gridCols gridRows result g w).2 }])
        (occupyCells { w with x := (findNextPosition gridCols gridRows result g w).1,
                              y := (findNextPosition gridCols gridRows result g w).2 }
          (findNextPosition gridCols gridRows result g w).1
          (findNextPosition gridCols gridRows result g w).2 g)) := rfl

theorem nodup_head_notin {α : Type} (result : List (WidgetState α)) (w : WidgetState α)
    (ws : List (WidgetState α))
    (hnd : ((result ++ w :: ws).map (fun v => v.id)).Nodup) :
    ∀ p ∈ result, p.id ≠ w.id := by
  intro p hp he
  rw [List.map_append, List.nodup_append] at hnd
  exact hnd.2.2 (List.mem_map_of_mem _ hp)
    (by rw [he, List.map_cons]; exact List.mem_cons_self _ _)

theorem reflowLoop_no_overlap {α : Type} (gridCols gridRows : Int) :
    ∀ (rest result : List (WidgetState α)) (g : GridMap),
      (∀ v ∈ result ++ rest, v.id ≠ "") →
      (∀ v ∈ result ++ rest, 1 ≤ v.width ∧ 1 ≤ v.height) →
      ((result ++ rest).map (fun v => v.id)).Nodup →
      result.Pairwise widgetsDisjoint →
      placedConsistent result g →
      reflowNoFallback gridCols gridRows rest result g = true →
      (result ++ reflowLoop gridCols gridRows rest result g).Pairwise widgetsDisjoint := by
  intro rest
  induction rest with
  | nil =>
    intro result g _ _ _ hpw _ _
    simpa [reflowLoop] using hpw
  | cons w ws ih =>
    intro result g hne hpos hnd hpw hcons hnf
    rw [reflowNoFallback_cons, Bool.and_eq_true] at hnf
    obtain ⟨hplace, hnf2⟩ := hnf
    rw [reflowLoop_cons]
    set posn := findNextPosition gridCols gridRows result g w with hposn
    set fw : WidgetState α := { w with x := posn.1, y := posn.2 } with hfw
    have hdisj : ∀ p ∈ result, checkCollision (toRect p) (toRect fw) = false := by
      by_cases hcp : canPlaceWidget g gridCols gridRows w w.x w.y = true
      · have hps : posn = (w.x, w.y) := by
          rw [hposn]
          unfold findNextPosition
          rw [if_pos hcp]
        intro p hp
        cases hb : checkCollision (toRect p) (toRect fw) with
        | false => rfl
        | true =>
          exfalso
          have hpp := hpos p (List.mem_append.mpr (Or.inl hp))
          have hpw' := hpos w (List.mem_append.mpr (Or.inr (List.mem_cons_self w ws)))
          have hcell := shared_cell_of_overlap p fw hpp.1 hpp.2
            (by rw [hfw]; exact hpw'.1) (by rw [hfw]; exact hpw'.2) hb
          obtain ⟨c, hpc, hfc⟩ := hcell
          have hg : g c = some p.id := (hcons c p.id).mpr ⟨p, hp, hpc, rfl⟩
          have hfc' : w.x ≤ c.1 ∧ c.1 < w.x + w.width ∧ w.y ≤ c.2 ∧ c.2 < w.y + w.height := by
            unfold coversCell at hfc
            rw [hfw, hps] at hfc
            exact hfc
          have hcc := ((canPlaceWidget_iff g gridCols gridRows w w.x w.y).mp hcp).2 c
            hfc'.1 hfc'.2.1 hfc'.2.2.1 hfc'.2.2.2 p.id hg
          rcases hcc with hzero | hsame
          · exact (hne p (List.mem_append.mpr (Or.inl hp))) hzero
          · exact (nodup_head_notin result w ws hnd p hp) hsame
      · have hsome : (getNextAvailablePosition (result.map toRect) gridCols gridRows
            w.width w.height).isSome = true := by
          rw [Bool.or_eq_true] at hplace
          rcases hplace with h | h
          · exact absurd h hcp
          · exact h
        rw [Option.isSome_iff_exists] at hsome
        obtain ⟨pp, hfind⟩ := hsome
        obtain ⟨px, py⟩ := pp
        have hps : posn = (px, py) := by
          rw [hposn]
          unfold findNextPosition
          rw [if_neg hcp, hfind]
        intro p hp
        have hfree := (getNext_some hfind).2 (toRect p) (List.mem_map_of_mem _ hp)
        have hrect : toRect fw = ⟨px, py, w.width, w.height⟩ := by
          rw [hfw, hps]
          rfl
        rw [hrect]
        exact hfree
    have hpw2 : (result ++ [fw]).Pairwise widgetsDisjoint := by
      rw [List.pairwise_append]
      refine ⟨hpw, List.pairwise_singleton _ _, ?_⟩
      intro a ha b hb
      rw [List.mem_singleton] at hb
      subst hb
      exact hdisj a ha
    have hcons2 : placedConsistent (result ++ [fw]) (occupyCells fw posn.1 posn.2 g) :=
      placedConsistent_extend result g fw hcons hdisj
    have hne2 : ∀ v ∈ (result ++ [fw]) ++ ws, v.id ≠ "" := by
      intro v hv
      rcases List.mem_append.mp hv with hv1 | hv2
      · rcases List.mem_append.mp hv1 with hv3 | hv4
        · exact hne v (List.mem_append.mpr (Or.inl hv3))
        · rw [List.mem_singleton] at hv4
          subst hv4
          exact hne w (List.mem_append.mpr (Or.inr (List.mem_cons_self w ws)))
      · exact hne v (List.mem_append.mpr (Or.inr (List.mem_cons_of_mem w hv2)))
    have hpos2 : ∀ v ∈ (result ++ [fw]) ++ ws, 1 ≤ v.width ∧ 1 ≤ v.height := by
      intro v hv
      rcases List.mem_append.mp hv with hv1 | hv2
      · rcases List.mem_append.mp hv1 with hv3 | hv4
        · exact hpos v (List.mem_append.mpr (Or.inl hv3))
        · rw [List.mem_singleton] at hv4
          subst hv4
          exact hpos w (List.mem_append.mpr (Or.inr (List.mem_cons_self w ws)))
      · exact hpos v (List.mem_append.mpr (Or.inr (List.mem_cons_of_mem w hv2)))
    have hnd2 : (((result ++ [fw]) ++ ws).map (fun v => v.id)).Nodup := by
      have he : ((result ++ [fw]) ++ ws).map (fun v => v.id) =
          (result ++ w :: ws).map (fun v => v.id) := by
        rw [hfw]
        simp
      rw [he]
      exact hnd
    have hrec := ih (result ++ [fw]) (occupyCells fw posn.1 posn.2 g)
      hne2 hpos2 hnd2 hpw2 hcons2 hnf2
    rw [List.append_assoc] at hrec
    exact hrec

theorem reflowLoop_identity {α : Type} (gridCols gridRows : Int) :
    ∀ (rest result : List (WidgetState α)) (g : GridMap),
      (∀ v ∈ result ++ rest, v.id ≠ "") →
      ((result ++ rest).map (fun v => v.id)).Nodup →
      (result ++ rest).Pairwise widgetsDisjoint →
      (∀ v ∈ rest, inBoundsRect gridCols gridRows (toRect v)) →
      placedConsistent result g →
      reflowLoop gridCols gridRows rest result g = rest := by
  intro rest
  induction rest with
  | nil => intro result g _ _ _ _ _; rfl
  | cons w ws ih =>
    intro result g hne hnd hpw hin hcons
    have hdisj : ∀ p ∈ result, checkCollision (toRect p) (toRect w) = false := by
      intro p hp
      rw [List.pairwise_append] at hpw
      exact hpw.2.2 p hp w (List.mem_cons_self w ws)
    have hcp : canPlaceWidget g gridCols gridRows w w.x w.y = true := by
      rw [canPlaceWidget_iff]
      constructor
      · have hb := hin w (List.mem_cons_self w ws)
        unfold inBoundsRect at hb
        unfold toRect at hb
        dsimp only at hb
        omega
      · intro c hc1 hc2 hc3 hc4 s hgs
        exfalso
        obtain ⟨p, hp, hpc, hid⟩ := (hcons c s).mp hgs
        have hov := overlap_of_shared_cell p w c hpc
          (by unfold coversCell; exact ⟨hc1, hc2, hc3, hc4⟩)
        rw [hdisj p hp] at hov
        simp at hov
    have hps : findNextPosition gridCols gridRows result g w = (w.x, w.y) := by
      unfold findNextPosition
      rw [if_pos hcp]
    have hps1 : (findNextPosition gridCols gridRows result g w).1 = w.x := by rw [hps]
    have hps2 : (findNextPosition gridCols gridRows result g w).2 = w.y := by rw [hps]
    rw [reflowLoop_cons, hps1, hps2]
    have hfww : ({ w with x := w.x, y := w.y } : WidgetState α) = w := rfl
    rw [hfww]
    have hrec : reflowLoop gridCols gridRows ws (result ++ [w])
        (occupyCells w w.x w.y g) = ws := by
      refine ih (result ++ [w]) _ ?_ ?_ ?_ ?_ ?_
      · intro v hv
        rcases List.mem_append.mp hv with hv1 | hv2
        · rcases List.mem_append.mp hv1 with hv3 | hv4
          · exact hne v (List.mem_append.mpr (Or.inl hv3))
          · rw [List.mem_singleton] at hv4
            rw [hv4]
            exact hne w (List.mem_append.mpr (Or.inr (List.mem_cons_self w ws)))
        · exact hne v (List.mem_append.mpr (Or.inr (List.mem_cons_of_mem w hv2)))
      · have he : ((result ++ [w]) ++ ws).map (fun v => v.id) =
            (result ++ w :: ws).map (fun v => v.id) := by
          simp
        rw [he]
        exact hnd
      · rw [List.append_assoc]
        exact hpw
      · intro v hv
        exact hin v (List.mem_cons_of_mem w hv)
      · exact placedConsistent_extend result g w hcons hdisj
    rw [hrec]

theorem reflowWidgets_false_eq {α : Type} (widgets : List (WidgetState α))
    (gridCols gridRows : Int) (activeWidgetId : Option String) :
    reflowWidgets widgets gridCols gridRows false activeWidgetId =
      widgets.map fun widget =>
        { widget with
          x := (clampGridPosition widget.x widget.y gridCols gridRows
            widget.width widget.height).1,
          y := (clampGridPosition widget.x widget.y gridCols gridRows
            widget.width widget.height).2 } := rfl

theorem reflowWidgets_true_eq {α : Type} (widgets : List (WidgetState α))
    (gridCols gridRows : Int) (activeWidgetId : Option String) :
    reflowWidgets widgets gridCols gridRows true activeWidgetId =
      reflowLoop gridCols gridRows (sortWidgets activeWidgetId widgets) [] emptyGridMap := rfl

theorem widgetLE_active_left {α : Type} (act : String) (hact : act ≠ "")
    (a b : WidgetState α) (ha : a.id = act) : widgetLE (some act) a b = true := by
  unfold widgetLE sortCmp
  dsimp only
  rw [if_neg hact, if_pos ha]
  rfl

theorem widgetLE_not_active {α : Type} (act : String) (hact : act ≠ "")
    (a b : WidgetState α) (hb : b.id = act) (hna : a.id ≠ act) :
    widgetLE (some act) a b = false := by
  unfold widgetLE sortCmp
  dsimp only
  rw [if_neg hact, if_neg hna, if_pos hb]
  rfl

theorem insertSorted_front {α : Type} (le : WidgetState α → WidgetState α → Bool)
    (a : WidgetState α) (acc : List (WidgetState α))
    (h : ∀ y ∈ acc, le y a = false) : insertSorted le a acc = a :: acc := by
  cases acc with
  | nil => rfl
  | cons y ys =>
    show (if le y a then y :: insertSorted le a ys else a :: y :: ys) = a :: y :: ys
    rw [if_neg (by simp [h y (List.mem_cons_self y ys)])]

theorem insertSorted_cons_head {α : Type} (le : WidgetState α → WidgetState α → Bool)
    (a z : WidgetState α) (t : List (WidgetState α)) (h : le a z = true) :
    insertSorted le z (a :: t) = a :: insertSorted le z t := by
  show (if le a z then a :: insertSorted le z t else z :: a :: t) = a :: insertSorted le z t
  rw [if_pos h]

theorem foldl_insert_active_head {α : Type} (le : WidgetState α → WidgetState α → Bool)
    (a : WidgetState α) (hmin : ∀ z, le a z = true) :
    ∀ (rest acc : List (WidgetState α)),
      (∀ y ∈ rest, y = a ∨ le y a = false) →
      ((∃ t, acc = a :: t) ∨ ((∀ y ∈ acc, le y a = false) ∧ a ∈ rest)) →
      ∃ t, (rest.foldl (fun s x => insertSorted le x s) acc) = a :: t := by
  intro rest
  induction rest with
  | nil =>
    intro acc _ hinv
    rcases hinv with ⟨t, ht⟩ | ⟨_, hmem⟩
    · exact ⟨t, by rw [List.foldl_nil]; exact ht⟩
    · simp at hmem
  | cons z rs ih =>
    intro acc hrest hinv
    rw [List.foldl_cons]
    rcases hinv with ⟨t, ht⟩ | ⟨hacc, hmem⟩
    · subst ht
      rw [insertSorted_cons_head le a z t (hmin z)]
      exact ih (a :: insertSorted le z t)
        (fun y hy => hrest y (List.mem_cons_of_mem z hy)) (Or.inl ⟨_, rfl⟩)
    · by_cases hza : z = a
      · subst hza
        rw [insertSorted_front le z acc hacc]
        exact ih (z :: acc)
          (fun y hy => hrest y (List.mem_cons_of_mem z hy)) (Or.inl ⟨acc, rfl⟩)
      · have hz := hrest z (List.mem_cons_self z rs)
        rcases hz with rfl | hzf
        · exact absurd rfl hza
        · have hmem' : a ∈ rs := by
            rcases List.mem_cons.mp hmem with h | h
            · exact absurd h.symm hza
            · exact h
          refine ih (insertSorted le z acc)
            (fun y hy => hrest y (List.mem_cons_of_mem z hy)) (Or.inr ⟨?_, hmem'⟩)
          intro y hy
          have hymem := (insertSorted_perm le z acc).mem_iff.mp hy
          rcases List.mem_cons.mp hymem with rfl | hyacc
          · exact hzf
          · exact hacc y hyacc

theorem sortWidgets_active_head {α : Type} (act : String) (hact : act ≠ "")
    (widgets : List (WidgetState α)) (a : WidgetState α) (ha : a ∈ widgets)
    (haid : a.id = act) (hnd : (widgets.map (fun v => v.id)).Nodup) :
    ∃ t, sortWidgets (some act) widgets = a :: t := by
  unfold sortWidgets
  refine foldl_insert_active_head (widgetLE (some act)) a
    (fun z => widgetLE_active_left act hact a z haid) widgets [] ?_
    (Or.inr ⟨by simp, ha⟩)
  intro y hy
  by_cases hya : y = a
  · exact Or.inl hya
  · refine Or.inr (widgetLE_not_active act hact y a haid ?_)
    intro hyid
    exact hya ((List.inj_on_of_nodup_map hnd) hy ha (by rw [hyid, haid]))

theorem getNext_nil_cases (gridCols gridRows widgetWidth widgetHeight : Int) :
    getNextAvailablePosition [] gridCols gridRows widgetWidth widgetHeight = some (0, 0) ∨
    getNextAvailablePosition [] gridCols gridRows widgetWidth widgetHeight = none := by
  rcases hf : getNextAvailablePosition [] gridCols gridRows widgetWidth widgetHeight with _ | p
  · exact Or.inr rfl
  · obtain ⟨px, py⟩ := p
    left
    have hb := (getNext_some hf).1
    by_cases h0 : px = 0 ∧ py = 0
    · rw [h0.1, h0.2]
    · exfalso
      have hfirst := getNext_first hf 0 0 le_rfl (by omega) le_rfl (by omega)
        (by unfold rowMajorLt; dsimp only; omega)
      obtain ⟨r, hr, _⟩ := hfirst
      exact absurd hr (List.not_mem_nil r)

theorem findNextPosition_nil_cannot {α : Type} (gridCols gridRows : Int) (g : GridMap)
    (w : WidgetState α) (hcp : canPlaceWidget g gridCols gridRows w w.x w.y = false) :
    findNextPosition gridCols gridRows [] g w = (0, 0) := by
  unfold findNextPosition
  rw [if_neg (by rw [hcp]; exact Bool.false_ne_true)]
  have hnil : (List.map toRect ([] : List (WidgetState α))) = [] := rfl
  rw [hnil]
  rcases getNext_nil_cases gridCols gridRows w.width w.height with h | h
  · rw [h]
  · rw [h]

/-- C8: checkCollision is the strict-inequality AABB overlap test: it returns
true iff A.x < B.x+B.width, A.x+A.width > B.x, A.y < B.y+B.height and
A.y+A.height > B.y; consequently rectangles touching only along an edge do
not overlap, e.g. checkCollision on A at (0,0) size 2 by 2 and B at (2,0)
size 2 by 2 is false. -/
theorem checkCollision_spec (a b : Rect) :
    (checkCollision a b = true ↔
      (a.x < b.x + b.width ∧ a.x + a.width > b.x ∧
        a.y < b.y + b.height ∧ a.y + a.height > b.y)) ∧
    checkCollision ⟨0, 0, 2, 2⟩ ⟨2, 0, 2, 2⟩ = false :=
  ⟨checkCollision_iff a b, by decide⟩

/-- C6: getNextAvailablePosition is a first-fit search in row-major reading
order: a returned position lies in the scanned ranges, its candidate
rectangle overlaps no occupied rectangle, and every row-major-earlier
in-range position is blocked; none is returned iff every in-range position
is blocked; in particular the two concrete examples of the spec hold. -/
theorem getNextAvailablePosition_first_fit (widgets : List Rect)
    (gridCols gridRows widgetWidth widgetHeight : Int) :
    (∀ x y : Int,
      getNextAvailablePosition widgets gridCols gridRows widgetWidth widgetHeight
          = some (x, y) →
        (0 ≤ x ∧ x ≤ gridCols - widgetWidth ∧ 0 ≤ y ∧ y ≤ gridRows - widgetHeight) ∧
        (∀ r ∈ widgets, checkCollision r ⟨x, y, widgetWidth, widgetHeight⟩ = false) ∧
        (∀ x' y' : Int, 0 ≤ x' → x' ≤ gridCols - widgetWidth → 0 ≤ y' →
          y' ≤ gridRows - widgetHeight → rowMajorLt (x', y') (x, y) →
          ∃ r ∈ widgets, checkCollision r ⟨x', y', widgetWidth, widgetHeight⟩ = true)) ∧
    (getNextAvailablePosition widgets gridCols gridRows widgetWidth widgetHeight = none ↔
      ∀ x y : Int, 0 ≤ x → x ≤ gridCols - widgetWidth → 0 ≤ y →
        y ≤ gridRows - widgetHeight →
        ∃ r ∈ widgets, checkCollision r ⟨x, y, widgetWidth, widgetHeight⟩ = true) ∧
    getNextAvailablePosition [] 4 4 2 2 = some (0, 0) ∧
    getNextAvailablePosition [⟨0, 0, 2, 2⟩] 4 4 2 2 = some (2, 0) := by
  refine ⟨?_, getNext_none_iff widgets gridCols gridRows widgetWidth widgetHeight,
    by decide, by decide⟩
  intro x y h
  exact ⟨(getNext_some h).1, (getNext_some h).2, getNext_first h⟩

/-- C10: an oversized request deterministically yields none: when the widget
is wider than the grid or taller than the grid, both scan ranges cannot both
be nonempty and getNextAvailablePosition returns none. -/
theorem getNextAvailablePosition_oversized (widgets : List Rect)
    (gridCols gridRows widgetWidth widgetHeight : Int)
    (h : gridCols < widgetWidth ∨ gridRows < widgetHeight) :
    getNextAvailablePosition widgets gridCols gridRows widgetWidth widgetHeight = none := by
  unfold getNextAvailablePosition
  rw [List.find?_eq_none]
  intro p hp
  have hmem := (mem_searchCandidates gridCols gridRows widgetWidth widgetHeight p).mp hp
  intro _
  omega

theorem getNextAvailablePosition_oversized_witness :
    getNextAvailablePosition [] 2 2 3 1 = none :=
  getNextAvailablePosition_oversized [] 2 2 3 1 (Or.inl (by decide))

/-- C7: validateWidgetPosition returns invalid with the bounds-clamp as
suggestion when the rectangle is out of bounds; otherwise, with
preventOverlap set and an overlap with a widget of different identifier, it
returns invalid with the free-space finder's result (or (0,0) when the
finder returns none) as suggestion; otherwise valid with no suggestion. -/
theorem validateWidgetPosition_spec {α : Type} (widget : WidgetState α)
    (allWidgets : List (WidgetState α)) (gridCols gridRows : Int)
    (preventOverlap : Bool) :
    (¬ inBoundsRect gridCols gridRows (toRect widget) →
      validateWidgetPosition widget allWidgets gridCols gridRows preventOverlap =
        ⟨false, some (clampGridPosition widget.x widget.y gridCols gridRows
          widget.width widget.height)⟩) ∧
    (inBoundsRect gridCols gridRows (toRect widget) → preventOverlap = true →
      (∃ other ∈ allWidgets, other.id ≠ widget.id ∧
        checkCollision (toRect widget) (toRect other) = true) →
      validateWidgetPosition widget allWidgets gridCols gridRows preventOverlap =
        ⟨false, some ((getNextAvailablePosition (allWidgets.map toRect) gridCols gridRows
          widget.width widget.height).getD (0, 0))⟩) ∧
    (inBoundsRect gridCols gridRows (toRect widget) →
      (preventOverlap = false ∨ ∀ other ∈ allWidgets, other.id = widget.id ∨
        checkCollision (toRect widget) (toRect other) = false) →
      validateWidgetPosition widget allWidgets gridCols gridRows preventOverlap =
        ⟨true, none⟩) := by
  unfold validateWidgetPosition
  refine ⟨?_, ?_, ?_⟩
  · intro hoob
    rw [if_pos (by unfold inBoundsRect toRect at hoob; dsimp only at hoob; omega)]
  · intro hib hpo hex
    rw [if_neg (by unfold inBoundsRect toRect at hib; dsimp only at hib; omega)]
    have hany : (allWidgets.any fun other =>
        decide (other.id ≠ widget.id) && checkCollision (toRect widget) (toRect other))
        = true := by
      rw [List.any_eq_true]
      obtain ⟨o, ho, hneq, hcol⟩ := hex
      exact ⟨o, ho, by rw [hcol]; simp [hneq]⟩
    rw [if_pos (by rw [hpo, hany]; rfl)]
  · intro hib hcase
    rw [if_neg (by unfold inBoundsRect toRect at hib; dsimp only at hib; omega)]
    have hcond : (preventOverlap && allWidgets.any fun other =>
        decide (other.id ≠ widget.id) && checkCollision (toRect widget) (toRect other))
        = false := by
      cases hpo2 : preventOverlap with
      | false => rfl
      | true =>
        rcases hcase with hpo | hall
        · rw [hpo2] at hpo
          simp at hpo
        · rw [Bool.true_and, List.any_eq_false]
          intro o ho
          rcases hall o ho with hid | hcol
          · simp [hid]
          · simp [hcol]
    rw [if_neg (by rw [hcond]; exact Bool.false_ne_true)]

/-- C1 (amended): when preventOverlap is false, the output identifier
sequence of reflowWidgets equals the input's; when preventOverlap is true,
the output is in processing order instead — the stable sort placing the
active widget first, then ascending y, then ascending x.  The claim's
unconditional order preservation fails (see the counterexample). -/
theorem reflow_order_characterization {α : Type} (widgets : List (WidgetState α))
    (gridCols gridRows : Int) (preventOverlap : Bool) (activeWidgetId : Option String) :
    (preventOverlap = false →
      (reflowWidgets widgets gridCols gridRows preventOverlap activeWidgetId).map
          (fun w => w.id) = widgets.map (fun w => w.id)) ∧
    (preventOverlap = true →
      (reflowWidgets widgets gridCols gridRows preventOverlap activeWidgetId).map
          (fun w => w.id) =
        (sortWidgets activeWidgetId widgets).map (fun w => w.id)) := by
  constructor
  · intro h
    subst h
    rw [reflowWidgets_false_eq, List.map_map]
    rfl
  · intro h
    subst h
    rw [reflowWidgets_true_eq]
    exact reflowLoop_map_id gridCols gridRows (sortWidgets activeWidgetId widgets) []
      emptyGridMap

/-- C1 counterexample: with preventOverlap true, two widgets given in the
order a (row 1), b (row 0) are returned in processing order b, a — the
identifier sequence of the output differs from the input's. -/
theorem reflow_order_counterexample :
    (reflowWidgets [⟨"a", 0, 1, 1, 1, ()⟩, ⟨"b", 0, 0, 1, 1, ()⟩] 2 2 true none).map
        (fun w => w.id) ≠
      ([⟨"a", 0, 1, 1, 1, ()⟩, ⟨"b", 0, 0, 1, 1, ()⟩] : List (WidgetState Unit)).map
        (fun w => w.id) := by
  decide

/-- C9: every widget in the output of reflowWidgets carries the identifier,
width, height and full payload (type, props and the other non-coordinate
fields) of the input widget with that identifier; only x and y may differ.
The identifier multiset is preserved. -/
theorem reflow_payload_roundtrip {α : Type} (widgets : List (WidgetState α))
    (gridCols gridRows : Int) (preventOverlap : Bool) (activeWidgetId : Option String)
    (hnd : (widgets.map (fun w => w.id)).Nodup) :
    ((reflowWidgets widgets gridCols gridRows preventOverlap activeWidgetId).map
        (fun w => w.id)).Perm (widgets.map (fun w => w.id)) ∧
    ∀ o ∈ reflowWidgets widgets gridCols gridRows preventOverlap activeWidgetId,
      ∀ i ∈ widgets, i.id = o.id →
        o.id = i.id ∧ o.width = i.width ∧ o.height = i.height ∧
          o.payload = i.payload := by
  cases preventOverlap with
  | false =>
    constructor
    · rw [reflowWidgets_false_eq, List.map_map]
      exact List.Perm.refl _
    · intro o ho i hi hid
      rw [reflowWidgets_false_eq, List.mem_map] at ho
      obtain ⟨j, hj, rfl⟩ := ho
      have hij : i = j := (List.inj_on_of_nodup_map hnd) hi hj hid
      rw [hij]
      exact ⟨rfl, rfl, rfl, rfl⟩
  | true =>
    constructor
    · rw [reflowWidgets_true_eq, reflowLoop_map_id]
      exact (sortWidgets_perm activeWidgetId widgets).map _
    · intro o ho i hi hid
      rw [reflowWidgets_true_eq] at ho
      obtain ⟨j, hj, hjid, hjw, hjh, hjp⟩ := reflowLoop_shape gridCols gridRows _ _ _ o ho
      rw [mem_sortWidgets] at hj
      have hij : i = j := (List.inj_on_of_nodup_map hnd) hi hj (by rw [hid, hjid])
      refine ⟨hid.symm, ?_, ?_, ?_⟩ <;> rw [hij]
      · exact hjw
      · exact hjh
      · exact hjp

theorem reflow_payload_roundtrip_witness :
    ((reflowWidgets [⟨"a", 0, 0, 1, 1, ()⟩] 2 2 true none).map (fun w => w.id)).Perm
      (([⟨"a", 0, 0, 1, 1, ()⟩] : List (WidgetState Unit)).map (fun w => w.id)) :=
  (reflow_payload_roundtrip [⟨"a", 0, 0, 1, 1, ()⟩] 2 2 true none (by decide)).1

/-- C4 (amended): provided every widget's width is at most gridCols and
height at most gridRows (the §7 caller contract), every rectangle in the
output of reflowWidgets is in-bounds; without that proviso the invariant
fails (see the counterexample: an oversized widget is returned out of
bounds). -/
theorem reflow_in_bounds {α : Type} (widgets : List (WidgetState α))
    (gridCols gridRows : Int) (preventOverlap : Bool) (activeWidgetId : Option String)
    (hfit : ∀ w ∈ widgets, w.width ≤ gridCols ∧ w.height ≤ gridRows) :
    ∀ o ∈ reflowWidgets widgets gridCols gridRows preventOverlap activeWidgetId,
      inBoundsRect gridCols gridRows (toRect o) := by
  cases preventOverlap with
  | true =>
    intro o ho
    rw [reflowWidgets_true_eq] at ho
    refine reflowLoop_inBounds gridCols gridRows _ [] emptyGridMap ?_ o ho
    intro v hv
    rw [mem_sortWidgets] at hv
    exact hfit v hv
  | false =>
    intro o ho
    rw [reflowWidgets_false_eq, List.mem_map] at ho
    obtain ⟨j, hj, rfl⟩ := ho
    have hfj := hfit j hj
    unfold inBoundsRect toRect clampGridPosition
    dsimp only
    omega

/-- C4 counterexample: a 5 by 1 widget on a 4 by 4 grid with preventOverlap
false is returned at (0,0) with width 5, violating the in-bounds predicate. -/
theorem reflow_in_bounds_counterexample :
    (reflowWidgets [⟨"a", 0, 0, 5, 1, ()⟩] 4 4 false none).map toRect = [⟨0, 0, 5, 1⟩] ∧
    ¬ inBoundsRect 4 4 ⟨0, 0, 5, 1⟩ := by
  exact ⟨by decide, by decide⟩

theorem reflow_in_bounds_witness :
    inBoundsRect 2 2 (toRect (⟨"a", 0, 0, 1, 1, ()⟩ : WidgetState Unit)) :=
  reflow_in_bounds [⟨"a", 0, 0, 1, 1, ()⟩] 2 2 true none (by decide)
    ⟨"a", 0, 0, 1, 1, ()⟩ (by decide)

/-- C2 (amended): with preventOverlap true, for widget lists whose
identifiers are pairwise distinct and nonempty and whose widths and heights
are at least 1 (the data-model invariants), if every widget is placed
without the (0,0) exhaustion fallback then every pair of distinct widgets
in the output of reflowWidgets is non-colliding.  The unconditional claim
fails at grid exhaustion (see the counterexample). -/
theorem reflow_no_overlap_pairs {α : Type} (widgets : List (WidgetState α))
    (gridCols gridRows : Int) (activeWidgetId : Option String)
    (hne : ∀ w ∈ widgets, w.id ≠ "")
    (hpos : ∀ w ∈ widgets, 1 ≤ w.width ∧ 1 ≤ w.height)
    (hnd : (widgets.map (fun w => w.id)).Nodup)
    (hnf : reflowPlacesAll widgets gridCols gridRows activeWidgetId = true) :
    (reflowWidgets widgets gridCols gridRows true activeWidgetId).Pairwise
      (fun a b => checkCollision (toRect a) (toRect b) = false) := by
  rw [reflowWidgets_true_eq]
  unfold reflowPlacesAll at hnf
  have hmain := reflowLoop_no_overlap gridCols gridRows
    (sortWidgets activeWidgetId widgets) [] emptyGridMap
    (by intro v hv; rw [List.nil_append, mem_sortWidgets] at hv; exact hne v hv)
    (by intro v hv; rw [List.nil_append, mem_sortWidgets] at hv; exact hpos v hv)
    (by rw [List.nil_append]
        exact (((sortWidgets_perm activeWidgetId widgets).map _).nodup_iff).mpr hnd)
    List.Pairwise.nil
    placedConsistent_nil
    hnf
  rw [List.nil_append] at hmain
  exact hmain

/-- C2 counterexample: on a 1 by 1 grid two unit widgets cannot both fit;
the second falls back to (0,0) and the output contains a colliding pair,
refuting the unconditional no-overlap claim. -/
theorem reflow_no_overlap_counterexample :
    ¬ (reflowWidgets [⟨"a", 0, 0, 1, 1, ()⟩, ⟨"b", 0, 0, 1, 1, ()⟩] 1 1 true none).Pairwise
      (fun a b => checkCollision (toRect a) (toRect b) = false) := by
  decide

theorem reflow_no_overlap_witness :
    (reflowWidgets [⟨"a", 0, 0, 1, 1, ()⟩, ⟨"b", 1, 0, 1, 1, ()⟩] 2 2 true none).Pairwise
      (fun a b => checkCollision (toRect a) (toRect b) = false) :=
  reflow_no_overlap_pairs [⟨"a", 0, 0, 1, 1, ()⟩, ⟨"b", 1, 0, 1, 1, ()⟩] 2 2 none
    (by decide) (by decide) (by decide) (by decide)

/-- C3 (amended): with preventOverlap true, distinct nonempty identifiers
and a nonempty active identifier naming a widget whose rectangle is out of
bounds, reflowWidgets never drops the active widget: it is processed first
and heads the output — but its requested rectangle is not bounds-clamped;
it is discarded and the widget is placed at (0,0), the first-fit position
over the empty already-placed set (also (0,0) when the finder has no room).
The claimed clamp-before-collision-check does not happen (counterexample). -/
theorem reflow_active_oob_placement {α : Type} (widgets : List (WidgetState α))
    (gridCols gridRows : Int) (act : String) (a : WidgetState α)
    (hact : act ≠ "") (ha : a ∈ widgets) (haid : a.id = act)
    (hnd : (widgets.map (fun w => w.id)).Nodup)
    (hoob : ¬ inBoundsRect gridCols gridRows (toRect a)) :
    ∃ t, reflowWidgets widgets gridCols gridRows true (some act) =
      { a with x := 0, y := 0 } :: t := by
  obtain ⟨t, hsort⟩ := sortWidgets_active_head act hact widgets a ha haid hnd
  rw [reflowWidgets_true_eq, hsort, reflowLoop_cons]
  have hcp : canPlaceWidget emptyGridMap gridCols gridRows a a.x a.y = false :=
    canPlaceWidget_oob emptyGridMap gridCols gridRows a a.x a.y hoob
  have hfp : findNextPosition gridCols gridRows [] emptyGridMap a = (0, 0) :=
    findNextPosition_nil_cannot gridCols gridRows emptyGridMap a hcp
  rw [hfp]
  exact ⟨_, rfl⟩

/-- C3 counterexample: the single active widget requested at (5,0) size 2
by 2 on a 4 by 4 empty grid would, under the claimed clamp-then-check
behavior, be kept at the clamped position (2,0); the code instead discards
the request and places it at (0,0). -/
theorem reflow_active_oob_counterexample :
    reflowWidgets [⟨"a", 5, 0, 2, 2, ()⟩] 4 4 true (some "a")
        = [⟨"a", 0, 0, 2, 2, ()⟩] ∧
    clampGridPosition 5 0 4 4 2 2 = (2, 0) ∧
    ((0 : Int), (0 : Int)) ≠ ((2 : Int), (0 : Int)) := by
  exact ⟨by decide, by decide, by decide⟩

theorem reflow_active_oob_witness :
    ∃ t, reflowWidgets [⟨"a", 5, 0, 2, 2, ()⟩] 4 4 true (some "a")
      = ({ (⟨"a", 5, 0, 2, 2, ()⟩ : WidgetState Unit) with x := 0, y := 0 }) :: t :=
  reflow_active_oob_placement [⟨"a", 5, 0, 2, 2, ()⟩] 4 4 "a" ⟨"a", 5, 0, 2, 2, ()⟩
    (by decide) (by decide) rfl (by decide) (by decide)

/-- C5 (amended): with preventOverlap true, identifiers distinct and
nonempty, sizes at least 1 and fitting the grid, and a first pass that
places every widget without the (0,0) fallback, a second reflow with the
same arguments changes no coordinates: it returns the first pass's output
re-sorted into processing order, a permutation of it.  Sequence equality —
the claim as stated — fails (see the counterexample). -/
theorem reflow_idempotent_mod_order {α : Type} (widgets : List (WidgetState α))
    (gridCols gridRows : Int) (activeWidgetId : Option String)
    (hne : ∀ w ∈ widgets, w.id ≠ "")
    (hpos : ∀ w ∈ widgets, 1 ≤ w.width ∧ 1 ≤ w.height)
    (hnd : (widgets.map (fun w => w.id)).Nodup)
    (hfit : ∀ w ∈ widgets, w.width ≤ gridCols ∧ w.height ≤ gridRows)
    (hnf : reflowPlacesAll widgets gridCols gridRows activeWidgetId = true) :
    reflowWidgets (reflowWidgets widgets gridCols gridRows true activeWidgetId)
        gridCols gridRows true activeWidgetId
      = sortWidgets activeWidgetId
          (reflowWidgets widgets gridCols gridRows true activeWidgetId) ∧
    (reflowWidgets (reflowWidgets widgets gridCols gridRows true activeWidgetId)
        gridCols gridRows true activeWidgetId).Perm
      (reflowWidgets widgets gridCols gridRows true activeWidgetId) := by
  set R1 := reflowWidgets widgets gridCols gridRows true activeWidgetId with hR1
  have hperm_ids : (R1.map (fun w => w.id)).Perm (widgets.map (fun w => w.id)) := by
    rw [hR1, reflowWidgets_true_eq, reflowLoop_map_id]
    exact (sortWidgets_perm activeWidgetId widgets).map _
  have hndR : (R1.map (fun w => w.id)).Nodup := hperm_ids.nodup_iff.mpr hnd
  have hshape : ∀ o ∈ R1, ∃ i ∈ widgets, o.id = i.id ∧ o.width = i.width ∧
      o.height = i.height ∧ o.payload = i.payload := by
    intro o ho
    rw [hR1, reflowWidgets_true_eq] at ho
    obtain ⟨j, hj, hrest⟩ := reflowLoop_shape gridCols gridRows _ _ _ o ho
    rw [mem_sortWidgets] at hj
    exact ⟨j, hj, hrest⟩
  have hneR : ∀ o ∈ R1, o.id ≠ "" := by
    intro o ho
    obtain ⟨i, hi, hid, -, -, -⟩ := hshape o ho
    rw [hid]
    exact hne i hi
  have hinR : ∀ o ∈ R1, inBoundsRect gridCols gridRows (toRect o) := by
    intro o ho
    rw [hR1, reflowWidgets_true_eq] at ho
    refine reflowLoop_inBounds gridCols gridRows _ [] emptyGridMap ?_ o ho
    intro v hv
    rw [mem_sortWidgets] at hv
    exact hfit v hv
  have hpwR : R1.Pairwise widgetsDisjoint := by
    rw [hR1, reflowWidgets_true_eq]
    unfold reflowPlacesAll at hnf
    have hmain := reflowLoop_no_overlap gridCols gridRows
      (sortWidgets activeWidgetId widgets) [] emptyGridMap
      (by intro v hv; rw [List.nil_append, mem_sortWidgets] at hv; exact hne v hv)
      (by intro v hv; rw [List.nil_append, mem_sortWidgets] at hv; exact hpos v hv)
      (by rw [List.nil_append]
          exact (((sortWidgets_perm activeWidgetId widgets).map _).nodup_iff).mpr hnd)
      List.Pairwise.nil
      placedConsistent_nil
      hnf
    rw [List.nil_append] at hmain
    exact hmain
  have hmain : reflowWidgets R1 gridCols gridRows true activeWidgetId =
      sortWidgets activeWidgetId R1 := by
    rw [reflowWidgets_true_eq]
    refine reflowLoop_identity gridCols gridRows (sortWidgets activeWidgetId R1) []
      emptyGridMap ?_ ?_ ?_ ?_ placedConsistent_nil
    · intro v hv
      rw [List.nil_append, mem_sortWidgets] at hv
      exact hneR v hv
    · rw [List.nil_append]
      exact (((sortWidgets_perm activeWidgetId R1).map _).nodup_iff).mpr hndR
    · rw [List.nil_append]
      exact ((sortWidgets_perm activeWidgetId R1).pairwise_iff
        (fun h => widgetsDisjoint_symmetric h)).mpr hpwR
    · intro v hv
      rw [mem_sortWidgets] at hv
      exact hinR v hv
  refine ⟨hmain, ?_⟩
  rw [hmain]
  exact sortWidgets_perm activeWidgetId R1

/-- C5 counterexample: two widgets both requested at (0,1) on a 2 by 2
grid; the first pass keeps a at (0,1) and moves b to (0,0), and the second
pass re-sorts by the new positions, so the two outputs differ as
sequences. -/
theorem reflow_idempotent_counterexample :
    reflowWidgets (reflowWidgets [⟨"a", 0, 1, 1, 1, ()⟩, ⟨"b", 0, 1, 1, 1, ()⟩] 2 2 true none)
        2 2 true none
      ≠ reflowWidgets [⟨"a", 0, 1, 1, 1, ()⟩, ⟨"b", 0, 1, 1, 1, ()⟩] 2 2 true none := by
  decide

theorem reflow_idempotent_witness :
    reflowWidgets (reflowWidgets [⟨"a", 0, 0, 1, 1, ()⟩] 2 2 true none) 2 2 true none
      = sortWidgets none (reflowWidgets [⟨"a", 0, 0, 1, 1, ()⟩] 2 2 true none) ∧
    (reflowWidgets (reflowWidgets [⟨"a", 0, 0, 1, 1, ()⟩] 2 2 true none) 2 2 true none).Perm
      (reflowWidgets [(⟨"a", 0, 0, 1, 1, ()⟩ : WidgetState Unit)] 2 2 true none) :=
  reflow_idempotent_mod_order [⟨"a", 0, 0, 1, 1, ()⟩] 2 2 none
    (by decide) (by decide) (by decide) (by decide) (by decide)
